import Mathlib

/-!
Shallow embedding of the CHIP-8 virtual machine from `src/emu/emu.rs`
(`struct Chip8` and its methods), for checking the specification's claims.

Conventions of the embedding:
* Machine integers are `Nat` with explicit reduction: a `u8` cell is read as
  `v % 256`, a `u16` as `v % 65536`; wrapping arithmetic carries the
  corresponding `%`.
* Fixed-size arrays (`memory : [u8; 4096]`, `registers : [u8; 16]`,
  `gfx : [u8; 2048]`, `stack : [u16; 16]`, `keys : [u8; 16]`) are `Nat → Nat`
  functions; every access whose Rust counterpart can panic (index out of
  bounds, `u16` underflow in debug) is guarded, and the whole step returns
  `Option Chip8` — `none` is the Rust panic.
* Bit masks on the source's values are rendered arithmetically:
  `a & 0xF000` (with `a < 2^16`) selects `a / 4096`, `a & 0x0FFF` is
  `a % 4096`, `a & 0x00FF` is `a % 256`, `a & 0x000F` is `a % 16`,
  `x & 0x1` is `x % 2`, `(x & 0x80) >> 7` is `x / 128 % 2`,
  `(x & 0x7F) << 1` is `x % 128 * 2`, `xval >> 1` is `xval / 2`,
  `1 << (7 - dx)` tests bit `7 - dx`, i.e. `pixel / 2 ^ (7 - dx) % 2`.
  Genuine bitwise combinations (`|`, `&`, `^` of register bytes) use
  `Nat.lor`/`Nat.land`/`Nat.xor`.
* The external random byte generator (`rand::thread_rng().gen()`) is an input
  `r` to the step.
-/

/-- The `Chip8` struct of `emu.rs`. -/
structure Chip8 where
  opcode : Nat      -- u16, current opcode
  memory : Nat → Nat      -- [u8; 4096]
  registers : Nat → Nat   -- [u8; 16], V0 - VF
  index : Nat       -- u16 index register
  pc : Nat          -- u16 program counter
  gfx : Nat → Nat         -- [u8; 2048], 64 x 32 screen
  delay_timer : Nat -- u8
  sound_timer : Nat -- u8
  stack : Nat → Nat       -- [u16; 16]
  sp : Nat          -- u16 stack pointer
  keys : Nat → Nat        -- [u8; 16]

/-- Pointwise array update (`arr[i] = v`). -/
def updFn (f : Nat → Nat) (i v : Nat) : Nat → Nat :=
  fun j => if j = i then v else f j

/-- `fn get_nibble(&self, i: u8) -> u8`: nibble `i % 4` of the opcode
(`shift = (i % 4) * 4; (opcode & (0xF << shift)) >> shift`). -/
def get_nibble (op i : Nat) : Nat := op / 16 ^ (i % 4) % 16

/-- Read a `u8` cell of an array field. -/
def rd8 (f : Nat → Nat) (i : Nat) : Nat := f i % 256

/-- `fn reg_dump`: store `registers[0..=end_index]` at `memory[index..]`
(`offset` is `u16` and is bounds-checked as a `usize` memory index). -/
def reg_dump (end_index : Nat) (s : Chip8) : Option Chip8 :=
  (List.range (end_index + 1)).foldlM (fun t i =>
    let offset := (t.index + i) % 65536
    if offset < 4096 then
      some { t with memory := updFn t.memory offset (rd8 t.registers i) }
    else none) s

/-- `fn reg_load`: load `memory[index..]` into `registers[0..=end_index]`. -/
def reg_load (end_index : Nat) (s : Chip8) : Option Chip8 :=
  (List.range (end_index + 1)).foldlM (fun t i =>
    let offset := (t.index + i) % 65536
    if offset < 4096 then
      some { t with registers := updFn t.registers i (rd8 t.memory offset) }
    else none) s

/-- One sprite pixel of the `0xDXYN` loop body: if bit `7 - dx` of `pixel`
is set, XOR screen cell `((y + dy) * 64) + x + dx` (recording a collision in
VF), with the Rust bounds check on `gfx`. -/
def drawPix (pixel x yb dx : Nat) (s : Chip8) : Option Chip8 :=
  if pixel / 2 ^ (7 - dx) % 2 = 1 then
    let gfx_index := yb * 64 + x + dx
    if gfx_index < 2048 then
      let s1 := if rd8 s.gfx gfx_index = 1 then
          { s with registers := updFn s.registers 0xF 1 } else s
      some { s1 with gfx := updFn s1.gfx gfx_index (rd8 s1.gfx gfx_index ^^^ 1) }
    else none
  else some s

/-- The `0xDXYN` double loop: rows `dy < n`, sprite byte from
`memory[(index + dy)]`, columns `dx < 8`. -/
def drawSprite (n x y : Nat) (s : Chip8) : Option Chip8 :=
  (List.range n).foldlM (fun t dy =>
    let addr := (t.index + dy) % 65536
    if addr < 4096 then
      let pixel := rd8 t.memory addr
      (List.range 8).foldlM (fun u dx => drawPix pixel x (y + dy) dx u) t
    else none) s

/-- The decode/execute part of `fn perform_opcode(&mut self)`: dispatch on
the primary nibble `op & 0xF000`, sub-dispatch on `op & 0x000F` (and
`op & 0x00F0`), apply the operation to `s` (the machine with `self.opcode`
already set to the fetched word). `r` is the byte the external RNG yields
for `0xCXNN`. `none` models a Rust panic (out-of-bounds index / `u16`
underflow). -/
def exec_op (r op : Nat) (s : Chip8) : Option Chip8 :=
  match op / 4096 with
    | 0x0 =>
      match op % 16 with
      | 0x0 => -- clear screen
        some { s with gfx := fun _ => 0, pc := (s.pc + 2) % 65536 }
      | 0xE => -- 0x00EE return from subroutine
        if 1 ≤ s.sp then
          let sp' := s.sp - 1
          if sp' < 16 then
            some { s with sp := sp',
                          pc := (s.stack sp' % 65536 + 2) % 65536 }
          else none
        else none
      | _ => some s -- NOP
    | 0x1 => -- 0x1NNN jump
      some { s with pc := op % 4096 }
    | 0x2 => -- 0x2NNN call subroutine
      if s.sp < 16 then
        some { s with stack := updFn s.stack s.sp s.pc,
                      sp := s.sp + 1,
                      pc := op % 4096 }
      else none
    | 0x3 => -- 0x3XNN skip if VX == NN
      let x := get_nibble op 2
      some { s with pc := (s.pc + if rd8 s.registers x = op % 256 then 4 else 2) % 65536 }
    | 0x4 => -- 0x4XNN skip if VX != NN
      let x := get_nibble op 2
      some { s with pc := (s.pc + if rd8 s.registers x ≠ op % 256 then 4 else 2) % 65536 }
    | 0x5 => -- 0x5XY0 skip if VX == VY
      let x := get_nibble op 2
      let y := get_nibble op 1
      some { s with pc := (s.pc + if rd8 s.registers x = rd8 s.registers y then 4 else 2) % 65536 }
    | 0x6 => -- 0x6XNN VX = NN
      let x := get_nibble op 2
      some { s with registers := updFn s.registers x (op % 256),
                    pc := (s.pc + 2) % 65536 }
    | 0x7 => -- 0x7XNN VX += NN (wrapping)
      let x := get_nibble op 2
      some { s with registers := updFn s.registers x ((rd8 s.registers x + op % 256) % 256),
                    pc := (s.pc + 2) % 65536 }
    | 0x8 =>
      let x := get_nibble op 2
      let y := get_nibble op 1
      match op % 16 with
      | 0x0 => -- VX = VY
        some { s with registers := updFn s.registers x (rd8 s.registers y),
                      pc := (s.pc + 2) % 65536 }
      | 0x1 => -- VX = VX | VY
        some { s with registers := updFn s.registers x (rd8 s.registers x ||| rd8 s.registers y),
                      pc := (s.pc + 2) % 65536 }
      | 0x2 => -- VX = VX & VY
        some { s with registers := updFn s.registers x (rd8 s.registers x &&& rd8 s.registers y),
                      pc := (s.pc + 2) % 65536 }
      | 0x3 => -- VX = VX ^ VY
        some { s with registers := updFn s.registers x (rd8 s.registers x ^^^ rd8 s.registers y),
                      pc := (s.pc + 2) % 65536 }
      | 0x4 => -- VX += VY; VF = carry
        let result := rd8 s.registers x + rd8 s.registers y
        some { s with registers := updFn (updFn s.registers x (result % 256)) 0xF
                        (if 0xFF < result then 1 else 0),
                      pc := (s.pc + 2) % 65536 }
      | 0x5 => -- VX -= VY (wrapping); VF = 0 iff borrow
        let xval := rd8 s.registers x
        let yval := rd8 s.registers y
        some { s with registers := updFn (updFn s.registers x ((xval + 256 - yval) % 256)) 0xF
                        (if xval < yval then 0 else 1),
                      pc := (s.pc + 2) % 65536 }
      | 0x6 => -- 0x8XY6: least_sig_bit = x & 0x1 (sic: the nibble x); VX >>= 1
        let xval := rd8 s.registers x
        let least_sig_bit := x % 2
        some { s with registers := updFn (updFn s.registers x (xval / 2)) 0xF least_sig_bit,
                      pc := (s.pc + 2) % 65536 }
      | 0x7 => -- VX = VY - VX (wrapping); VF = 0 iff borrow
        let xval := rd8 s.registers x
        let yval := rd8 s.registers y
        some { s with registers := updFn (updFn s.registers x ((yval + 256 - xval) % 256)) 0xF
                        (if yval < xval then 0 else 1),
                      pc := (s.pc + 2) % 65536 }
      | 0xE => -- 0x8XYE: most_sig_bit = (x & 0x80) >> 7 (sic); VX = (VX & 0x7F) << 1
        let xval := rd8 s.registers x
        let most_sig_bit := x / 128 % 2
        some { s with registers := updFn (updFn s.registers x (xval % 128 * 2)) 0xF most_sig_bit,
                      pc := (s.pc + 2) % 65536 }
      | _ => some s -- NOP
    | 0x9 => -- 0x9XY0 skip if VX != VY
      let x := get_nibble op 2
      let y := get_nibble op 1
      some { s with pc := (s.pc + if rd8 s.registers x ≠ rd8 s.registers y then 4 else 2) % 65536 }
    | 0xA => -- 0xANNN index = NNN
      some { s with index := op % 4096, pc := (s.pc + 2) % 65536 }
    | 0xB => -- 0xBNNN pc = V0 + NNN
      some { s with pc := rd8 s.registers 0 + op % 4096 }
    | 0xC => -- 0xCXNN VX = rand & NN
      let x := get_nibble op 2
      some { s with registers := updFn s.registers x (r % 256 &&& op % 256),
                    pc := (s.pc + 2) % 65536 }
    | 0xD => -- 0xDXYN draw sprite
      let x := get_nibble op 2
      let y := get_nibble op 1
      let n := get_nibble op 0
      let s1 := { s with registers := updFn s.registers 0xF 0 }
      (drawSprite n x y s1).map fun s2 => { s2 with pc := (s2.pc + 2) % 65536 }
    | 0xE =>
      let x := get_nibble op 2
      match op % 16 with
      | 0xE => -- 0xEX9E skip if key VX pressed
        let key := rd8 s.registers x
        if key < 16 then
          some { s with pc := (s.pc + if rd8 s.keys key ≠ 0 then 4 else 2) % 65536 }
        else none
      | 0x1 => -- 0xEXA1 skip if key VX not pressed
        let key := rd8 s.registers x
        if key < 16 then
          some { s with pc := (s.pc + if rd8 s.keys key = 0 then 4 else 2) % 65536 }
        else none
      | _ => some s -- NOP
    | 0xF =>
      let x := get_nibble op 2
      match op % 16 with
      | 0x3 => -- 0xFX33 BCD of VX at index, index+1, index+2
        let val := rd8 s.registers x
        let mem3 := updFn (updFn (updFn s.memory s.index (val / 100))
          (s.index + 1) (val / 10 % 10)) (s.index + 2) (val % 10)
        if s.index + 2 < 4096 then
          some { s with memory := mem3, pc := (s.pc + 2) % 65536 }
        else none
      | 0x5 =>
        match op / 16 % 16 with
        | 0x1 => -- 0xFX15: delay_timer = x (sic: the nibble x, not VX)
          some { s with delay_timer := x, pc := (s.pc + 2) % 65536 }
        | 0x5 => -- 0xFX55 reg_dump
          (reg_dump x s).map fun t => { t with pc := (t.pc + 2) % 65536 }
        | 0x6 => -- 0xFX65 reg_load
          (reg_load x s).map fun t => { t with pc := (t.pc + 2) % 65536 }
        | _ => some s -- NOP
      | 0x7 => -- 0xFX07 VX = delay_timer
        some { s with registers := updFn s.registers x (s.delay_timer % 256),
                      pc := (s.pc + 2) % 65536 }
      | 0x8 => -- 0xFX18: sound_timer = x (sic: the nibble x, not VX)
        some { s with sound_timer := x, pc := (s.pc + 2) % 65536 }
      | 0x9 => -- 0xFX29 index = VX * 5 (font sprite)
        some { s with index := rd8 s.registers x * 5, pc := (s.pc + 2) % 65536 }
      | 0xA => -- 0xFX0A block until key press, store key in VX
        let scan := (List.range 16).foldl
          (fun (acc : (Nat → Nat) × Bool) k =>
            if rd8 s.keys k ≠ 0 then (updFn acc.1 x k, true) else acc)
          (s.registers, false)
        if scan.2 then
          some { s with registers := scan.1, pc := (s.pc + 2) % 65536 }
        else
          some { s with registers := scan.1 } -- early return, pc unchanged
      | 0xE => -- 0xFX1E index += VX
        some { s with index := (s.index + rd8 s.registers x) % 65536,
                      pc := (s.pc + 2) % 65536 }
      | _ => some s -- NOP
    | _ => some s -- NOP (unreachable after a fetch: op / 4096 < 16)

/-- `fn perform_opcode(&mut self)`: fetch the big-endian opcode at `pc`
(`(memory[pc] as u16) << 8 | memory[pc + 1] as u16`, with the Rust bounds
check on `pc + 1`), store it in `self.opcode`, then decode and execute. -/
def perform_opcode (r : Nat) (s0 : Chip8) : Option Chip8 :=
  if s0.pc + 1 < 4096 then
    exec_op r (rd8 s0.memory s0.pc * 256 + rd8 s0.memory (s0.pc + 1))
      { s0 with opcode := rd8 s0.memory s0.pc * 256 + rd8 s0.memory (s0.pc + 1) }
  else none

/-- The delay-timer block of `fn cycle`:
`if self.delay_timer > 0 { self.delay_timer -= 1; }`. -/
def tick_delay (t : Chip8) : Chip8 :=
  if 0 < t.delay_timer % 256 then
    { t with delay_timer := t.delay_timer % 256 - 1 } else t

/-- The sound-timer block of `fn cycle` (the `BEEP` print at 1 has no state
effect): `if self.sound_timer > 0 { ...; self.sound_timer -= 1; }`. -/
def tick_sound (t : Chip8) : Chip8 :=
  if 0 < t.sound_timer % 256 then
    { t with sound_timer := t.sound_timer % 256 - 1 } else t

/-- `fn cycle(&mut self)`: one `perform_opcode` plus the timer countdown. -/
def cycle (r : Nat) (s : Chip8) : Option Chip8 :=
  (perform_opcode r s).map fun t => tick_sound (tick_delay t)

/-- `n` repeated `cycle` calls (the driver loop calling `step`). -/
def cycleN (r : Nat) : Nat → Chip8 → Option Chip8
  | 0, s => some s
  | n + 1, s => (cycle r s).bind (cycleN r n)

/-- `fn load_rom(&mut self, rom: &[u8; 4096 - 0x200])`: memory keeps its
first 0x200 bytes and holds the ROM image from 0x200 on. -/
def load_rom (s : Chip8) (rom : Nat → Nat) : Chip8 :=
  { s with memory := fun i => if i < 0x200 then s.memory i else rom (i - 0x200) }

/-- The all-zero machine with `pc = 0x200` (fields of `Chip8::new()` before
the fontset is copied; the font bytes are irrelevant to the claims below and
test states override the memory cells they read). -/
def zeroed : Chip8 :=
  { opcode := 0, memory := fun _ => 0, registers := fun _ => 0, index := 0,
    pc := 0x200, gfx := fun _ => 0, delay_timer := 0, sound_timer := 0,
    stack := fun _ => 0, sp := 0, keys := fun _ => 0 }

/-! ### Concrete machine states used to evaluate the code -/

/-- Opcode `0x8006` (right shift of V0) at `pc = 0x200`, with `V0 = 1`. -/
def c1state : Chip8 :=
  { zeroed with memory := updFn (updFn zeroed.memory 0x200 0x80) 0x201 0x06,
                registers := updFn zeroed.registers 0 1 }

/-- Opcode `0x800E` (left shift of V0) at `pc = 0x200`, with `V0 = 0x80`. -/
def c2state : Chip8 :=
  { zeroed with memory := updFn (updFn zeroed.memory 0x200 0x80) 0x201 0x0E,
                registers := updFn zeroed.registers 0 0x80 }

/-- Opcode `0xF015` (set delay timer from V0) at `pc = 0x200`, with `V0 = 7`. -/
def c3dstate : Chip8 :=
  { zeroed with memory := updFn (updFn zeroed.memory 0x200 0xF0) 0x201 0x15,
                registers := updFn zeroed.registers 0 7 }

/-- Opcode `0xF018` (set sound timer from V0) at `pc = 0x200`, with `V0 = 7`. -/
def c3sstate : Chip8 :=
  { zeroed with memory := updFn (updFn zeroed.memory 0x200 0xF0) 0x201 0x18,
                registers := updFn zeroed.registers 0 7 }

/-- Opcode `0x8008` (an undefined `0x8`-group sub-case) at `pc = 0x200`. -/
def c4state : Chip8 :=
  { zeroed with memory := updFn (updFn zeroed.memory 0x200 0x80) 0x201 0x08 }

/-- Opcode `0xF029` (font sprite of V0) at `pc = 0x200`, with `V0 = 16`. -/
def c5state : Chip8 :=
  { zeroed with memory := updFn (updFn zeroed.memory 0x200 0xF0) 0x201 0x29,
                registers := updFn zeroed.registers 0 16 }

/-- Opcode `0x8F04` (VF += V0) at `pc = 0x200`, with `VF = 1`, `V0 = 1`. -/
def c6state : Chip8 :=
  { zeroed with memory := updFn (updFn zeroed.memory 0x200 0x8F) 0x201 0x04,
                registers := updFn (updFn zeroed.registers 15 1) 0 1 }

/-- Opcode `0xD011` (draw 1 row at X-nibble 0, Y-nibble 1) at `pc = 0x200`,
with `V0 = 70`, `V1 = 0`, `index = 0x300`, sprite byte `0x80`. -/
def c10state : Chip8 :=
  { zeroed with memory := updFn (updFn (updFn zeroed.memory 0x200 0xD0) 0x201 0x11) 0x300 0x80,
                registers := updFn (updFn zeroed.registers 0 70) 1 0,
                index := 0x300 }

/-- Opcode `0xD011` at `pc = 0x200`, with `V0 = 63`, `V1 = 31`,
`index = 0x300`, sprite byte `0x01` (set bit in column offset 7). -/
def c10fault : Chip8 :=
  { zeroed with memory := updFn (updFn (updFn zeroed.memory 0x200 0xD0) 0x201 0x11) 0x300 0x01,
                registers := updFn (updFn zeroed.registers 0 63) 1 31,
                index := 0x300 }

/-- Opcode `0x8104` (V1 += V0) at `pc = 0x200`, all registers zero. -/
def c6wstate : Chip8 :=
  { zeroed with memory := updFn (updFn zeroed.memory 0x200 0x81) 0x201 0x04 }

/-- Opcode `0xF00A` (wait for a key, store it in V0) at `pc = 0x200`,
no key pressed. -/
def c7stall : Chip8 :=
  { zeroed with memory := updFn (updFn zeroed.memory 0x200 0xF0) 0x201 0x0A }

/-- Opcode `0xF00A` at `pc = 0x200`, with key 5 pressed. -/
def c7press : Chip8 :=
  { c7stall with keys := updFn zeroed.keys 5 1 }

/-- Opcode `0x2300` (call 0x300) at `pc = 0x200` and opcode `0x00EE`
(return) at `0x300`. -/
def c8state : Chip8 :=
  { zeroed with memory := updFn (updFn (updFn (updFn zeroed.memory
      0x200 0x23) 0x201 0x00) 0x300 0x00) 0x301 0xEE }

/-- The fetched opcode's primary or secondary nibble matches no defined
case of `perform_opcode`'s dispatch (the `_ => println!("NOP")` arms). -/
def NopOpcode (op : Nat) : Prop :=
  (op / 4096 = 0x0 ∧ op % 16 ≠ 0x0 ∧ op % 16 ≠ 0xE) ∨
  (op / 4096 = 0x8 ∧ 8 ≤ op % 16 ∧ op % 16 ≠ 0xE) ∨
  (op / 4096 = 0xE ∧ op % 16 ≠ 0xE ∧ op % 16 ≠ 0x1) ∨
  (op / 4096 = 0xF ∧ op % 16 = 0x5 ∧
    op / 16 % 16 ≠ 0x1 ∧ op / 16 % 16 ≠ 0x5 ∧ op / 16 % 16 ≠ 0x6) ∨
  (op / 4096 = 0xF ∧ op % 16 ≠ 0x3 ∧ op % 16 ≠ 0x5 ∧ op % 16 ≠ 0x7 ∧
    op % 16 ≠ 0x8 ∧ op % 16 ≠ 0x9 ∧ op % 16 ≠ 0xA ∧ op % 16 ≠ 0xE)

/-! ### C1, C2, C3, C10: evaluations at the failing inputs -/

/-- Claim C1: `8XY6` stores the pre-shift least-significant bit of VX into
VF. Evaluation at the failing input: with `V0 = 1` (least-significant bit 1),
executing `0x8006` leaves `VF = 0` (the code takes the low bit of the
register *index* `x`, not of the value of VX), while VX and the program
counter are updated as the claim says. -/
theorem C1_rshift_flag_eval :
    ((perform_opcode 0 c1state).map fun t => (t.registers 15, t.registers 0, t.pc))
      = some (0, 0, 0x202) ∧ rd8 c1state.registers 0 % 2 = 1 := by decide

/-- Claim C2: `8XYE` stores the pre-shift most-significant bit of VX into
VF. Evaluation at the failing input: with `V0 = 0x80` (most-significant bit
1), executing `0x800E` leaves `VF = 0` (the code computes `(x & 0x80) >> 7`
on the register *index* `x < 16`, which is always 0), while VX receives
`(V0 << 1) mod 256 = 0` and the program counter advances as the claim says. -/
theorem C2_lshift_flag_eval :
    ((perform_opcode 0 c2state).map fun t => (t.registers 15, t.registers 0, t.pc))
      = some (0, 0, 0x202) ∧ rd8 c2state.registers 0 / 128 % 2 = 1 := by decide

/-- Claim C3: `FX15`/`FX18` set the delay/sound timer to the value of VX.
Evaluation at the failing input: with `V0 = 7`, executing `0xF015` sets the
delay timer to 0 and executing `0xF018` sets the sound timer to 0 — the code
assigns the register *index* `x`, not the value of VX. -/
theorem C3_timer_eval :
    ((perform_opcode 0 c3dstate).map Chip8.delay_timer) = some 0 ∧
    rd8 c3dstate.registers 0 = 7 ∧
    ((perform_opcode 0 c3sstate).map Chip8.sound_timer) = some 0 ∧
    rd8 c3sstate.registers 0 = 7 := by decide

/-- Claim C10: the draw opcode flips the pixel at linear index
`(VY + dy) * 64 + VX + dx` and faults when that index reaches 2048.
Evaluation: the code reads the sprite coordinates from the opcode's X/Y
*nibbles*, not from the registers. With `V0 = 70`, `V1 = 0` and opcode
`0xD011`, the claim places the flip at index `0 * 64 + 70 = 70`, but the
code flips index `1 * 64 + 0 = 64` (nibbles `x = 0`, `y = 1`). With
`V0 = 63`, `V1 = 31` and sprite byte `0x01`, the claim's index is
`31 * 64 + 63 + 7 = 2054 ≥ 2048`, a fault — but the step succeeds and flips
index `1 * 64 + 7 = 71`: nibble coordinates never leave the screen. -/
theorem C10_draw_eval :
    ((perform_opcode 0 c10state).map fun t => (t.gfx 64, t.gfx 70, t.pc))
      = some (1, 0, 0x202) ∧
    rd8 c10state.registers 0 = 70 ∧ rd8 c10state.registers 1 = 0 ∧
    ((perform_opcode 0 c10fault).map fun t => t.gfx 71) = some 1 ∧
    rd8 c10fault.registers 0 = 63 ∧ rd8 c10fault.registers 1 = 31 := by decide

/-! ### C4: unknown opcodes -/

/-- Claim C4, counterexample: executing the undefined opcode `0x8008` does
not advance the program counter by 2 — the code's `NOP` arms print and fall
through without touching `pc`. -/
theorem C4_unknown_pc_counterexample :
    ((perform_opcode 0 c4state).map Chip8.pc) ≠ some 0x202 := by decide

/-- Claim C4 as amended: for every fetched opcode whose primary or secondary
nibble matches no defined case, the step is a no-op on all VM state except
the current-opcode latch; the program counter is left unchanged (not
advanced by 2), and the step is never fatal. -/
theorem C4_unknown_opcode_noop (r : Nat) (s : Chip8) (hpc : s.pc + 1 < 4096)
    (hnop : NopOpcode (rd8 s.memory s.pc * 256 + rd8 s.memory (s.pc + 1))) :
    perform_opcode r s
      = some { s with opcode := rd8 s.memory s.pc * 256 + rd8 s.memory (s.pc + 1) } := by
  unfold perform_opcode
  rw [if_pos hpc]
  unfold exec_op
  rcases hnop with ⟨h1, h2, h3⟩ | ⟨h1, h2, h3⟩ | ⟨h1, h2, h3⟩ |
    ⟨h1, h2, h3, h4, h5⟩ | ⟨h1, h2, h3, h4, h5, h6, h7, h8⟩
  all_goals (split <;> try omega)
  all_goals (try rfl)
  all_goals (split <;> try omega)
  all_goals (try rfl)
  all_goals (split <;> try omega)
  all_goals rfl

/-- Witness for C4's amended theorem: the undefined opcode `0x8008` leaves
everything but the opcode latch unchanged. -/
theorem C4_unknown_opcode_noop_witness :
    perform_opcode 0 c4state
      = some { c4state with
          opcode := rd8 c4state.memory c4state.pc * 256
            + rd8 c4state.memory (c4state.pc + 1) } :=
  C4_unknown_opcode_noop 0 c4state (by decide) (by unfold NopOpcode; decide)

/-! ### C5: font sprite opcode -/

/-- Claim C5, counterexample: with `V0 = 16`, executing `0xF029` sets the
index register to `16 * 5 = 80`, not to `5 * (V0 mod 16) = 0` — the code
never masks the register value to its low nibble. -/
theorem C5_font_counterexample :
    ((perform_opcode 0 c5state).map Chip8.index)
      ≠ some (5 * (rd8 c5state.registers 0 % 16)) := by decide

/-- Claim C5 as amended: executing `FX29` sets the index register to
`5 * VX` for the full register value — no reduction of VX to its low nibble
takes place, so the claimed `5 * (VX mod 16)` holds only when `VX ≤ 0xF`.
The program counter advances by 2. -/
theorem C5_font_index (r : Nat) (s : Chip8) (x : Nat) (hx : x < 16)
    (hpc : s.pc + 1 < 4096)
    (hm1 : rd8 s.memory s.pc = 0xF0 + x)
    (hm2 : rd8 s.memory (s.pc + 1) = 0x29) :
    ((perform_opcode r s).map fun t => (t.index, t.pc))
      = some (rd8 s.registers x * 5, s.pc + 2) := by
  unfold perform_opcode
  rw [if_pos hpc, hm1, hm2]
  unfold exec_op
  have hg : get_nibble ((0xF0 + x) * 256 + 0x29) 2 = x := by
    unfold get_nibble; norm_num; omega
  all_goals (split <;> try omega)
  all_goals try (simp only [imp_false] at *; omega)
  all_goals (split <;> try omega)
  all_goals try (simp only [imp_false] at *; omega)
  rw [hg]
  have hmod : (s.pc + 2) % 65536 = s.pc + 2 := Nat.mod_eq_of_lt (by omega)
  rw [hmod]
  rfl

/-- Witness for C5's amended theorem at `V0 = 16`. -/
theorem C5_font_index_witness :
    ((perform_opcode 0 c5state).map fun t => (t.index, t.pc))
      = some (rd8 c5state.registers 0 * 5, c5state.pc + 2) :=
  C5_font_index 0 c5state 0 (by decide) (by decide) (by decide) (by decide)

/-! ### C6: addition opcode -/

/-- Claim C6, counterexample at `x = 15`: with `VF = 1`, `V0 = 1`, executing
`0x8F04` (VF += V0) must — per the claim — store `(1 + 1) mod 256 = 2` into
VX = VF; but the carry flag is written to VF after the sum, so VF ends 0. -/
theorem C6_add_counterexample :
    ((perform_opcode 0 c6state).map fun t => t.registers 15)
      ≠ some ((rd8 c6state.registers 15 + rd8 c6state.registers 0) % 256) := by
  decide

/-- Claim C6 as amended: for all register pairs `(a, b)` held in VX and VY,
`8XY4` stores `(a + b) mod 256` into VX and sets VF to 1 iff `a + b > 255`,
else 0, for every `x ≠ 15` and every `y` (including `y = 15`); when `x = 15`
the flag write overwrites the stored sum, so VX = VF holds the flag alone. -/
theorem C6_add_carry (r : Nat) (s : Chip8) (x y : Nat) (hx : x < 16)
    (hy : y < 16) (hxf : x ≠ 15) (hpc : s.pc + 1 < 4096)
    (hm1 : rd8 s.memory s.pc = 0x80 + x)
    (hm2 : rd8 s.memory (s.pc + 1) = y * 16 + 4) :
    ((perform_opcode r s).map fun t => (t.registers x, t.registers 15, t.pc))
      = some ((rd8 s.registers x + rd8 s.registers y) % 256,
              if 255 < rd8 s.registers x + rd8 s.registers y then 1 else 0,
              s.pc + 2) := by
  unfold perform_opcode
  rw [if_pos hpc, hm1, hm2]
  unfold exec_op
  have hgx : get_nibble ((0x80 + x) * 256 + (y * 16 + 4)) 2 = x := by
    unfold get_nibble; norm_num; omega
  have hgy : get_nibble ((0x80 + x) * 256 + (y * 16 + 4)) 1 = y := by
    unfold get_nibble; norm_num; omega
  all_goals (split <;> try omega)
  all_goals try (simp only [imp_false] at *; omega)
  all_goals (split <;> try omega)
  all_goals try (simp only [imp_false] at *; omega)
  rw [hgx, hgy]
  have hmod : (s.pc + 2) % 65536 = s.pc + 2 := Nat.mod_eq_of_lt (by omega)
  rw [hmod]
  simp [updFn, hxf]

/-- Witness for C6's amended theorem: `0x8104` (V1 += V0) with
`V1 = V0 = 0`. -/
theorem C6_add_carry_witness :
    ((perform_opcode 0 c6wstate).map fun t => (t.registers 1, t.registers 15, t.pc))
      = some ((rd8 c6wstate.registers 1 + rd8 c6wstate.registers 0) % 256,
              if 255 < rd8 c6wstate.registers 1 + rd8 c6wstate.registers 0 then 1 else 0,
              c6wstate.pc + 2) :=
  C6_add_carry 0 c6wstate 1 0 (by decide) (by decide) (by decide) (by decide)
    (by decide) (by decide)

/-! ### C8: call/return round-trip -/

/-- Claim C8: for every stack pointer below capacity and every address `nnn`
holding a return opcode, executing `2NNN` at address `A = pc` and then
`00EE` at `nnn` restores the program counter to `A + 2` and the stack
pointer to its pre-call value. -/
theorem C8_call_return (r r' : Nat) (s : Chip8) (nnn : Nat)
    (hpc : s.pc + 1 < 4096) (hsp : s.sp < 16) (hnnn : nnn + 1 < 4096)
    (hm1 : rd8 s.memory s.pc = 0x20 + nnn / 256)
    (hm2 : rd8 s.memory (s.pc + 1) = nnn % 256)
    (hr1 : rd8 s.memory nnn = 0x00)
    (hr2 : rd8 s.memory (nnn + 1) = 0xEE) :
    (((perform_opcode r s).bind (perform_opcode r')).map fun t => (t.pc, t.sp))
      = some (s.pc + 2, s.sp) := by
  have hop : ((0x20 + nnn / 256) * 256 + nnn % 256) % 4096 = nnn := by omega
  have h1 : perform_opcode r s
      = some { s with opcode := (0x20 + nnn / 256) * 256 + nnn % 256,
                      stack := updFn s.stack s.sp s.pc,
                      sp := s.sp + 1, pc := nnn } := by
    unfold perform_opcode
    rw [if_pos hpc, hm1, hm2]
    unfold exec_op
    all_goals (split <;> try omega)
    all_goals try (simp only [imp_false] at *; omega)
    split
    · rw [hop]
    · exact absurd hsp (by assumption)
  rw [h1]
  show ((perform_opcode r' _).map fun t => (t.pc, t.sp)) = _
  unfold perform_opcode
  rw [if_pos (show nnn + 1 < 4096 from hnnn)]
  rw [show rd8 ({ s with opcode := (0x20 + nnn / 256) * 256 + nnn % 256,
                         stack := updFn s.stack s.sp s.pc,
                         sp := s.sp + 1, pc := nnn } : Chip8).memory nnn = 0x00 from hr1,
      show rd8 ({ s with opcode := (0x20 + nnn / 256) * 256 + nnn % 256,
                         stack := updFn s.stack s.sp s.pc,
                         sp := s.sp + 1, pc := nnn } : Chip8).memory (nnn + 1) = 0xEE from hr2]
  unfold exec_op
  all_goals (split <;> try omega)
  all_goals try (solve
    | (exfalso; simp_all)
    | (simp only [imp_false] at *; omega))
  all_goals (split <;> try omega)
  all_goals try (solve
    | (exfalso; simp_all)
    | (simp only [imp_false] at *; omega))
  dsimp only
  rw [if_pos (show 1 ≤ s.sp + 1 by omega),
      if_pos (show s.sp + 1 - 1 < 16 by omega)]
  simp only [Option.map_some', Option.some.injEq, Prod.mk.injEq, updFn,
    Nat.add_sub_cancel]
  rw [if_pos trivial]
  exact ⟨by omega, trivial⟩

/-- Witness for C8 at a concrete machine: call `0x300` from `0x200`,
return at `0x300`. -/
theorem C8_call_return_witness :
    (((perform_opcode 0 c8state).bind (perform_opcode 0)).map fun t => (t.pc, t.sp))
      = some (c8state.pc + 2, c8state.sp) :=
  C8_call_return 0 0 c8state 0x300 (by decide) (by decide) (by decide)
    (by decide) (by decide) (by decide) (by decide)

/-! ### C7: key-wait opcode -/

/-- The timer countdown changes no field except the two timers. -/
theorem tick_fields (t : Chip8) :
    (tick_sound (tick_delay t)).pc = t.pc ∧
    (tick_sound (tick_delay t)).memory = t.memory ∧
    (tick_sound (tick_delay t)).keys = t.keys ∧
    (tick_sound (tick_delay t)).registers = t.registers := by
  unfold tick_sound tick_delay
  split <;> (try split) <;> exact ⟨rfl, rfl, rfl, rfl⟩

/-- The `0xFX0A` key scan when no key is pressed: the accumulator is left
untouched and `pressed` stays false. -/
theorem keyScan_none (keysf regs : Nat → Nat) (ix : Nat)
    (hk : ∀ k, k < 16 → rd8 keysf k = 0) :
    (List.range 16).foldl
      (fun (acc : (Nat → Nat) × Bool) k =>
        if rd8 keysf k ≠ 0 then (updFn acc.1 ix k, true) else acc)
      (regs, false) = (regs, false) := by
  have e : List.range 16 = [0, 1, 2, 3, 4, 5, 6, 7, 8, 9, 10, 11, 12, 13, 14, 15] := rfl
  rw [e]
  simp [hk 0 (by norm_num), hk 1 (by norm_num), hk 2 (by norm_num),
    hk 3 (by norm_num), hk 4 (by norm_num), hk 5 (by norm_num),
    hk 6 (by norm_num), hk 7 (by norm_num), hk 8 (by norm_num),
    hk 9 (by norm_num), hk 10 (by norm_num), hk 11 (by norm_num),
    hk 12 (by norm_num), hk 13 (by norm_num), hk 14 (by norm_num),
    hk 15 (by norm_num)]

/-- The `0xFX0A` key scan when exactly key `k0` is pressed: register `ix`
receives `k0` and `pressed` becomes true. -/
theorem keyScan_one (keysf regs : Nat → Nat) (ix k0 : Nat) (hk0 : k0 < 16)
    (hp : rd8 keysf k0 ≠ 0) (ho : ∀ j, j < 16 → j ≠ k0 → rd8 keysf j = 0) :
    (List.range 16).foldl
      (fun (acc : (Nat → Nat) × Bool) k =>
        if rd8 keysf k ≠ 0 then (updFn acc.1 ix k, true) else acc)
      (regs, false) = (updFn regs ix k0, true) := by
  have e : List.range 16 = [0, 1, 2, 3, 4, 5, 6, 7, 8, 9, 10, 11, 12, 13, 14, 15] := rfl
  rw [e]
  interval_cases k0 <;> simp [hp, ho]

/-- Executing the fetched word `0xFX0A` with no key pressed returns the
machine unchanged (the Rust `return` before `pc += 2`). -/
theorem exec_keywait_nokey (r op x : Nat) (s : Chip8) (hx : x < 16)
    (hop : op = (0xF0 + x) * 256 + 0x0A)
    (hk : ∀ k, k < 16 → rd8 s.keys k = 0) :
    exec_op r op s = some s := by
  subst hop
  unfold exec_op
  all_goals (split <;> try omega)
  all_goals try (solve
    | (exfalso; simp_all)
    | (simp only [imp_false] at *; omega))
  all_goals (try rfl)
  all_goals (split <;> try omega)
  all_goals try (solve
    | (exfalso; simp_all)
    | (simp only [imp_false] at *; omega))
  all_goals (try rfl)
  dsimp only
  rw [keyScan_none s.keys s.registers (get_nibble ((0xF0 + x) * 256 + 0x0A) 2) hk]
  rfl

/-- Executing the fetched word `0xFX0A` with exactly key `k0` pressed
stores `k0` into VX and advances `pc` by 2. -/
theorem exec_keywait_onekey (r op x k0 : Nat) (s : Chip8) (hx : x < 16)
    (hk0 : k0 < 16) (hop : op = (0xF0 + x) * 256 + 0x0A)
    (hp : rd8 s.keys k0 ≠ 0) (ho : ∀ j, j < 16 → j ≠ k0 → rd8 s.keys j = 0) :
    exec_op r op s = some { s with registers := updFn s.registers x k0,
                                   pc := (s.pc + 2) % 65536 } := by
  subst hop
  unfold exec_op
  have hg : get_nibble ((0xF0 + x) * 256 + 0x0A) 2 = x := by
    unfold get_nibble; norm_num; omega
  all_goals (split <;> try omega)
  all_goals try (solve
    | (exfalso; simp_all)
    | (simp only [imp_false] at *; omega))
  all_goals (try rfl)
  all_goals (split <;> try omega)
  all_goals try (solve
    | (exfalso; simp_all)
    | (simp only [imp_false] at *; omega))
  all_goals (try rfl)
  dsimp only
  rw [keyScan_one s.keys s.registers (get_nibble ((0xF0 + x) * 256 + 0x0A) 2) k0 hk0 hp ho,
    hg]
  rfl

/-- A `cycle` at a `0xFX0A` instruction with no key pressed only latches the
opcode and ticks the timers. -/
theorem keywait_nokey_cycle (r x : Nat) (s : Chip8) (hx : x < 16)
    (hpc : s.pc + 1 < 4096)
    (hm1 : rd8 s.memory s.pc = 0xF0 + x)
    (hm2 : rd8 s.memory (s.pc + 1) = 0x0A)
    (hk : ∀ k, k < 16 → rd8 s.keys k = 0) :
    cycle r s
      = some (tick_sound (tick_delay { s with opcode := (0xF0 + x) * 256 + 0x0A })) := by
  unfold cycle perform_opcode
  rw [if_pos hpc, hm1, hm2]
  rw [exec_keywait_nokey r ((0xF0 + x) * 256 + 0x0A) x
    { s with opcode := (0xF0 + x) * 256 + 0x0A } hx rfl (fun k hk' => hk k hk')]
  rfl

/-- Any number of `cycle` calls at a `0xFX0A` instruction with no key
pressed leaves the program counter unchanged. -/
theorem keywait_stall_iter (r x n : Nat) : ∀ s : Chip8, x < 16 →
    s.pc + 1 < 4096 →
    rd8 s.memory s.pc = 0xF0 + x → rd8 s.memory (s.pc + 1) = 0x0A →
    (∀ k, k < 16 → rd8 s.keys k = 0) →
    (cycleN r n s).map Chip8.pc = some s.pc := by
  induction n with
  | zero => intro s _ _ _ _ _; rfl
  | succ m ih =>
    intro s hx hpc hm1 hm2 hk
    have hc := keywait_nokey_cycle r x s hx hpc hm1 hm2 hk
    show ((cycle r s).bind (cycleN r m)).map Chip8.pc = some s.pc
    rw [hc]
    have hf := tick_fields { s with opcode := (0xF0 + x) * 256 + 0x0A }
    show (cycleN r m (tick_sound (tick_delay
      { s with opcode := (0xF0 + x) * 256 + 0x0A }))).map Chip8.pc = some s.pc
    have hT := ih (tick_sound (tick_delay { s with opcode := (0xF0 + x) * 256 + 0x0A }))
      hx (by rw [hf.1]; exact hpc)
      (by rw [hf.2.1, hf.1]; exact hm1)
      (by rw [hf.2.1, hf.1]; exact hm2)
      (by intro k hk'; rw [hf.2.2.1]; exact hk k hk')
    rw [hT, hf.1]

/-- Claim C7: while the current opcode is `FX0A` and no key is pressed, any
number of `step()` calls leaves the program counter unchanged; on the first
`step()` after a key (the only pressed one) becomes pressed, that key's
index is stored into VX and the program counter advances by 2. -/
theorem C7_key_wait (r x : Nat) (s : Chip8) (hx : x < 16)
    (hpc : s.pc + 1 < 4096)
    (hm1 : rd8 s.memory s.pc = 0xF0 + x)
    (hm2 : rd8 s.memory (s.pc + 1) = 0x0A) :
    ((∀ k, k < 16 → rd8 s.keys k = 0) →
      ∀ n, (cycleN r n s).map Chip8.pc = some s.pc) ∧
    (∀ k, k < 16 → rd8 s.keys k ≠ 0 →
      (∀ j, j < 16 → j ≠ k → rd8 s.keys j = 0) →
      ((cycle r s).map fun t => (t.registers x, t.pc)) = some (k, s.pc + 2)) := by
  constructor
  · intro hk n
    exact keywait_stall_iter r x n s hx hpc hm1 hm2 hk
  · intro k hk0 hp ho
    unfold cycle perform_opcode
    rw [if_pos hpc, hm1, hm2]
    rw [exec_keywait_onekey r ((0xF0 + x) * 256 + 0x0A) x k
      { s with opcode := (0xF0 + x) * 256 + 0x0A } hx hk0 rfl
      (fun h => hp h) (fun j h1 h2 => ho j h1 h2)]
    have hf := tick_fields
      { s with opcode := (0xF0 + x) * 256 + 0x0A,
               registers := updFn s.registers x k,
               pc := (s.pc + 2) % 65536 }
    simp only [Option.map_some']
    rw [hf.1, hf.2.2.2]
    simp only [Option.some.injEq, Prod.mk.injEq]
    constructor
    · show updFn s.registers x k x = k
      simp [updFn]
    · show (s.pc + 2) % 65536 = s.pc + 2
      omega

/-- Witness for C7: with no key pressed three `step()` calls keep
`pc = 0x200`; with only key 5 pressed one `step()` stores 5 in V0 and
advances to `0x202`. -/
theorem C7_key_wait_witness :
    ((cycleN 0 3 c7stall).map Chip8.pc = some c7stall.pc) ∧
    (((cycle 0 c7press).map fun t => (t.registers 0, t.pc))
      = some (5, c7press.pc + 2)) := by
  have h1 := (C7_key_wait 0 0 c7stall (by decide) (by decide) (by decide)
    (by decide)).1
  have h2 := (C7_key_wait 0 0 c7press (by decide) (by decide) (by decide)
    (by decide)).2
  exact ⟨h1 (by decide) 3, h2 5 (by decide) (by decide) (by decide)⟩

/-! ### C9: load_rom frame effect -/

/-- Claim C9: `load_rom` writes the image bytes into memory starting at
0x200 and leaves every memory byte below 0x200 (the font region included)
and every other VM attribute unchanged. -/
theorem C9_load_rom (s : Chip8) (rom : Nat → Nat) :
    (∀ i, i < 0x200 → (load_rom s rom).memory i = s.memory i) ∧
    (∀ i, 0x200 ≤ i → i < 4096 → (load_rom s rom).memory i = rom (i - 0x200)) ∧
    (load_rom s rom).opcode = s.opcode ∧
    (load_rom s rom).registers = s.registers ∧
    (load_rom s rom).index = s.index ∧
    (load_rom s rom).pc = s.pc ∧
    (load_rom s rom).gfx = s.gfx ∧
    (load_rom s rom).delay_timer = s.delay_timer ∧
    (load_rom s rom).sound_timer = s.sound_timer ∧
    (load_rom s rom).stack = s.stack ∧
    (load_rom s rom).sp = s.sp ∧
    (load_rom s rom).keys = s.keys := by
  refine ⟨fun i hi => ?_, fun i hi1 hi2 => ?_,
    rfl, rfl, rfl, rfl, rfl, rfl, rfl, rfl, rfl, rfl⟩
  · unfold load_rom
    simp [hi]
  · unfold load_rom
    simp [Nat.not_lt.2 hi1]

/-- Witness for C9: loading the constant-7 image over the zeroed machine
keeps byte 0x1FF and the program counter, and writes 7 at 0x200. -/
theorem C9_load_rom_witness :
    (load_rom zeroed (fun _ => 7)).memory 0x1FF = zeroed.memory 0x1FF ∧
    (load_rom zeroed (fun _ => 7)).memory 0x200 = 7 ∧
    (load_rom zeroed (fun _ => 7)).pc = zeroed.pc := by
  obtain ⟨h1, h2, _, _, _, h6, _⟩ := C9_load_rom zeroed (fun _ => 7)
  exact ⟨h1 0x1FF (by norm_num),
    by simpa using h2 0x200 (by norm_num) (by norm_num), h6⟩
